import Mathlib

/-!
# Verification of the skizze sketch catalog (`counters/manager.go`)

Shallow embedding of the catalog and lifecycle engine of the repository:
the `ManagerStruct` registry, its create/delete/list/add/remove/query
operations, and the startup rehydration (`loadInfo` / `loadSketches`).

Modelling conventions:

* Go strings and byte slices are modelled as `List Char` (`Str`).  All
  identifiers and family tags in the verified properties are ASCII, where
  Go's byte length and the character count coincide.
* Go maps (`map[string]abstract.Counter`, `map[string]*abstract.Info`) are
  modelled as association lists with `lookupA` / `insertA` / `eraseA`
  mirroring map read, assignment and `delete`.  Go map iteration order is
  unspecified; the model iterates in list order.
* A Go interface value of type `abstract.Counter` may be `nil`; the
  `sketches` map therefore holds `Option Counter`, with `none` standing
  for a nil interface.  An operation that would call a method on a nil
  interface (a runtime panic in Go) is modelled by an outer `none` result.
* Go's `error` results are modelled as `Option Str` (`none` = nil error).
* Code of the repository outside `src/` (the `storage`, `config` and
  `abstract` packages and the estimator wrappers) enters the model only
  through parameters or definitions whose doc comment starts
  `Modelled from the spec:`.
-/

/-- Go strings / byte slices, as character lists. -/
abbrev Str := List Char

/-- Map read `m[k]` on an association list (first binding wins). -/
def lookupA (k : Str) : List (Str × α) → Option α
  | [] => none
  | (k', v) :: rest => if k' = k then some v else lookupA k rest

/-- Map removal `delete(m, k)`. -/
def eraseA (k : Str) : List (Str × α) → List (Str × α)
  | [] => []
  | p :: rest => if p.1 = k then eraseA k rest else p :: eraseA k rest

/-- Map assignment `m[k] = v`: the new binding replaces any old one. -/
def insertA (k : Str) (v : α) (l : List (Str × α)) : List (Str × α) :=
  (k, v) :: eraseA k l

/-- Descriptor (`abstract.Info`).  Field `typ` embeds the Go field `Type`
(`Type` is a reserved word in Lean).  `Properties` holds
`map[string]float64` in the source; no verified property inspects the
numeric values, which are carried as an opaque numeric payload. -/
structure Info where
  ID : Str
  typ : Str
  Properties : List (Str × Int)
  State : List (Str × Nat)
deriving DecidableEq, Repr

/-- An `abstract.Counter` as the catalog observes it: identity accessors
and the query methods dispatched by `GetCountForSketch` /
`DeleteFromSketch`.  `AddMultiple` mutates the estimator in place and its
result is discarded by the catalog, so it does not appear here. -/
structure Counter where
  typ : Str
  id : Str
  getCount : Nat
  getFrequency : Option (List Str) → List (Str × Nat)
  removeMultiple : List Str → Bool × Option Str

/-- Modelled from the spec: the two storage namespaces of §4.3 (the
`storage` package is outside `src/`): info store and data store, each an
opaque persistent map from canonical id to bytes. -/
structure Storage where
  infoStore : List (Str × Str)
  dataStore : List (Str × Str)
deriving DecidableEq, Repr

/-- `counters.ManagerStruct`: the in-memory registry. -/
structure ManagerStruct where
  sketches : List (Str × Option Counter)
  info : List (Str × Info)

/-- Modelled from the spec: family tag string `"cardinality"`
(`abstract.HLLPP`, outside `src/`). -/
def HLLPP : Str := "cardinality".data

/-- Modelled from the spec: family tag string `"frequency"`
(`abstract.CML`, outside `src/`). -/
def CML : Str := "frequency".data

/-- Modelled from the spec: family tag string `"top-k"`
(`abstract.TopK`, outside `src/`). -/
def TopK : Str := "top-k".data

/-- The canonical id `fmt.Sprintf("%s.%s", sketchID, sketchType)`. -/
def canonicalID (sketchID sketchType : Str) : Str :=
  sketchID ++ '.' :: sketchType

/-- Error text of the duplicate-id branch of `CreateSketch` (line 36);
`t` is the `Type` field of the descriptor already registered. -/
def dupIdMsg (id t : Str) : Str :=
  "Sketch ".data ++ id ++ " of type ".data ++ t ++ " already exists".data

/-- Error text of the id-length branch of `CreateSketch` (line 41). -/
def tooLongMsg (idLen maxKeySize : Nat) : Str :=
  "Invalid length of sketch ID: ".data ++ (Nat.repr idLen).data ++
    ". Max length allowed: ".data ++ (Nat.repr maxKeySize).data

/-- Error text for an empty sketch type in `CreateSketch` (line 46). -/
def noTypeMsg : Str := "No sketch type was given!".data

/-- Error text of the unknown-family branch of `CreateSketch` (line 62). -/
def invalidTypeMsg (t : Str) : Str := "Invalid sketch type: ".data ++ t

/-- Error text of the construction-failure branch of `CreateSketch`
(line 66) and of `loadSketches` (line 243).  `fmt.Sprint` renders the
whole `Info` struct; the model abbreviates that rendering to the
descriptor id — no verified property depends on this text. -/
def couldNotLoadMsg (i : Info) (e : Str) : Str :=
  "Could not load sketch ".data ++ i.ID ++ ". Err:".data ++ e

/-- Error text of `DeleteSketch` for a missing id (line 81). -/
def deleteNoSuchMsg (sketchID : Str) : Str := "No such sketch ".data ++ sketchID

/-- Error text of `AddToSketch` / `GetCountForSketch` for a missing id
(lines 117, 157). -/
def noSuchSketchMsg (sketchID sketchType : Str) : Str :=
  "No such sketch ".data ++ sketchID ++ " of type ".data ++ sketchType ++ " found".data

/-- Error text of `DeleteFromSketch` for a missing key (line 137). -/
def removeNoSuchMsg (sketchID : Str) : Str := "No such sketch: ".data ++ sketchID

/-- `dumpInfo`: binds the descriptor in the in-memory `info` map, marshals
it and writes it to the info store.  The source discards `SaveInfo`'s
result entirely (line 210), so any store error vanishes here.
`json.Marshal` (guarded by `PanicOnError`) cannot fail on `Info` and is a
total parameter `marshal`. -/
def dumpInfo (saveInfo : Str → Str → Storage → Storage × Option Str)
    (marshal : Info → Str) (m : ManagerStruct) (st : Storage) (i : Info) :
    ManagerStruct × Storage :=
  let m' : ManagerStruct := ⟨m.sketches, insertA i.ID i m.info⟩
  (m', (saveInfo i.ID (marshal i) st).1)

/-- `CreateSketch`.  The three family constructors (`hllpp.NewSketch`,
`topk.NewSketch`, `cml.NewSketch`, packages outside `src/`) are
parameters returning `(sketch, err)` — `Option Counter` because a Go
interface result may be nil.  The result is the manager (mutated in
place in Go), the storage after any `SaveInfo`, and the returned
`error`. -/
def CreateSketch
    (newHllpp newTopk newCml : Info → Option Counter × Option Str)
    (saveInfo : Str → Str → Storage → Storage × Option Str)
    (marshal : Info → Str) (maxKeySize : Nat)
    (m : ManagerStruct) (st : Storage)
    (sketchID sketchType : Str) (props : List (Str × Int)) :
    ManagerStruct × Storage × Option Str :=
  let id := canonicalID sketchID sketchType
  match lookupA id m.info with
  | some info => (m, st, some (dupIdMsg id info.typ))
  | none =>
    if id.length > maxKeySize then
      (m, st, some (tooLongMsg id.length maxKeySize))
    else if sketchType = [] then
      (m, st, some noTypeMsg)
    else
      let info : Info := ⟨id, sketchType, props, []⟩
      match
        (if sketchType = HLLPP then some (newHllpp info)
         else if sketchType = TopK then some (newTopk info)
         else if sketchType = CML then some (newCml info)
         else none) with
      | none => (m, st, some (invalidTypeMsg sketchType))
      | some (sk, err) =>
        match err with
        | some e => (m, st, some (couldNotLoadMsg info e))
        | none =>
          let m1 : ManagerStruct := ⟨insertA info.ID sk m.sketches, m.info⟩
          let r := dumpInfo saveInfo marshal m1 st info
          (r.1, r.2, none)

/-- `DeleteSketch`: looks up the canonical id in `sketches`; on a hit it
removes the id from both in-memory maps, then calls `DeleteInfo` (its
error is returned if non-nil), then `DeleteData`.  The store operations
(`storage` package, outside `src/`) are fallible parameters. -/
def DeleteSketch
    (deleteInfo deleteData : Str → Storage → Storage × Option Str)
    (m : ManagerStruct) (st : Storage) (sketchID sketchType : Str) :
    ManagerStruct × Storage × Option Str :=
  let id := canonicalID sketchID sketchType
  match lookupA id m.sketches with
  | none => (m, st, some (deleteNoSuchMsg sketchID))
  | some _ =>
    let m' : ManagerStruct := ⟨eraseA id m.sketches, eraseA id m.info⟩
    match deleteInfo id st with
    | (st1, some e) => (m', st1, some e)
    | (st1, none) =>
      let r := deleteData id st1
      (m', r.1, r.2)

/-- The display string `fmt.Sprintf("%s/%s", typ, id[:len(id)-len(typ)-1])`
built by `GetSketches` for one live counter (line 103).  Go would panic on
`len(id) < len(typ)+1`; with `Nat` subtraction the model truncates
instead, a case no verified property reaches. -/
def sketchEntry (v : Counter) : Str :=
  v.typ ++ '/' :: v.id.take (v.id.length - v.typ.length - 1)

/-- Iteration of `GetSketches` over the `sketches` map entries.  Calling
`GetType`/`GetID` on a nil interface value panics in Go: result `none`. -/
def getSketchesGo : List (Str × Option Counter) → Option (List Str)
  | [] => some []
  | (_, v?) :: rest =>
    match v? with
    | none => none
    | some v =>
      match getSketchesGo rest with
      | none => none
      | some acc => some (sketchEntry v :: acc)

/-- `GetSketches` (the `list()` operation). -/
def GetSketches (m : ManagerStruct) : Option (List Str) :=
  getSketchesGo m.sketches

/-- `AddToSketch`: canonical-id lookup; on a miss the not-found error; on
a nil interface value the method call panics (`none`); otherwise
`AddMultiple` ingests the batch in place and the function returns nil
for every values list (the batch reaches only the unobserved in-place
mutation of the estimator). -/
def AddToSketch (m : ManagerStruct) (sketchID sketchType : Str)
    (_values : List Str) : Option (Option Str) :=
  let id := canonicalID sketchID sketchType
  match lookupA id m.sketches with
  | none => some (some (noSuchSketchMsg sketchID sketchType))
  | some none => none
  | some (some _) => some none

/-- `DeleteFromSketch`: the source looks up `m.sketches[sketchID]` — the
bare `sketchID`, not the canonical id (line 135); `sketchType` is unused
by the lookup.  On a hit it calls `RemoveMultiple` and returns its error,
discarding the boolean. -/
def DeleteFromSketch (m : ManagerStruct) (sketchID _sketchType : Str)
    (values : List Str) : Option (Option Str) :=
  match lookupA sketchID m.sketches with
  | none => some (some (removeNoSuchMsg sketchID))
  | some none => none
  | some (some c) => some (c.removeMultiple values).2

/-- The `interface{}` result of `GetCountForSketch`: a scalar count or a
frequency/top-k association. -/
inductive QueryRes where
  | count : Nat → QueryRes
  | freq : List (Str × Nat) → QueryRes
deriving Repr

/-- `GetCountForSketch`: canonical-id lookup; dispatch on the counter's
`GetType()`: `CML` → `GetFrequency(values)`, `TopK` → `GetFrequency(nil)`,
anything else → `GetCount()`.  On a miss Go returns `(0, err)`. -/
def GetCountForSketch (m : ManagerStruct) (sketchID sketchType : Str)
    (values : List Str) : Option (QueryRes × Option Str) :=
  let id := canonicalID sketchID sketchType
  match lookupA id m.sketches with
  | none => some (QueryRes.count 0, some (noSuchSketchMsg sketchID sketchType))
  | some none => none
  | some (some c) =>
    if c.typ = CML then some (QueryRes.freq (c.getFrequency (some values)), none)
    else if c.typ = TopK then some (QueryRes.freq (c.getFrequency none), none)
    else some (QueryRes.count c.getCount, none)

/-- `loadInfo`: consumes the `LoadAllInfo()` result (store key ↦
descriptor bytes; here the bytes appear already unmarshalled, since
`encoding/json` is outside `src/`).  The source declares `var infoStruct
abstract.Info` once, OUTSIDE the loop, and executes
`m.info[infoStruct.ID] = &infoStruct` each iteration (lines 215, 220-223):
every binding stores a pointer to the same one cell.  Each key is the
`ID` read from that entry's bytes, but after the loop every key
dereferences to the cell's final contents — the last entry's descriptor.
The model binds accordingly.  (Go map iteration order is unspecified;
the model fixes list order.) -/
def loadInfo (infos : List (Str × Info)) (m : ManagerStruct) : ManagerStruct :=
  match infos.getLast? with
  | none => m
  | some lastEntry =>
    ⟨m.sketches,
     (infos.map (fun p => p.2.ID)).foldl (fun acc k => insertA k lastEntry.2 acc) m.info⟩

/-- One iteration step plus the rest of the `loadSketches` loop.  The
`switch info.Type` has a default branch that only logs
`"Invalid counter type"`; `sketch` (nil) and `err` (nil) keep their
zero values, so control falls through to `m.sketches[info.ID] = sketch`,
inserting a nil interface value.  `strg.LoadData(key, 0, 0)` discards its
result and has no modelled effect. -/
def loadSketchesGo
    (fromHllpp fromTopk fromCml : Info → Option Counter × Option Str) :
    List (Str × Info) → ManagerStruct → ManagerStruct × Option Str
  | [], m => (m, none)
  | (_, info) :: rest, m =>
    let r :=
      if info.typ = HLLPP then fromHllpp info
      else if info.typ = TopK then fromTopk info
      else if info.typ = CML then fromCml info
      else (none, none)
    match r.2 with
    | some e => (m, some (couldNotLoadMsg info e))
    | none =>
      loadSketchesGo fromHllpp fromTopk fromCml rest
        ⟨insertA info.ID r.1 m.sketches, m.info⟩

/-- `loadSketches`: iterates the `info` map, reconstructing each sketch
via the family's `NewSketchFromData` (wrapper packages outside `src/`,
passed as parameters returning `(sketch, err)`). -/
def loadSketches
    (fromHllpp fromTopk fromCml : Info → Option Counter × Option Str)
    (m : ManagerStruct) : ManagerStruct × Option Str :=
  loadSketchesGo fromHllpp fromTopk fromCml m.info m

/-- Well-formedness of one `sketches` map entry, as `CreateSketch` and
rehydration of valid descriptors produce them: a live counter whose
`GetID` equals the map key, the key decomposing as
`name ++ "." ++ GetType` with a slash-free family tag. -/
def EntryWF (p : Str × Option Counter) : Prop :=
  ∃ c n, p.2 = some c ∧ c.id = p.1 ∧ '/' ∉ c.typ ∧ p.1 = n ++ '.' :: c.typ

/-! ## Concrete fixtures used to instantiate theorems with hypotheses -/

/-- A constructor for witnesses: builds a live counter carrying the
descriptor's identity, per the `NewEmpty` contract of spec §4.2. -/
def mkCounterW : Info → Option Counter × Option Str :=
  fun i => (some ⟨i.typ, i.ID, 0, fun _ => [], fun _ => (true, none)⟩, none)

/-- A well-behaved `SaveInfo` for witnesses. -/
def saveInfoW : Str → Str → Storage → Storage × Option Str :=
  fun id b st => (⟨insertA id b st.infoStore, st.dataStore⟩, none)

/-- A `SaveInfo` that always fails, leaving the store unchanged. -/
def saveInfoFailW : Str → Str → Storage → Storage × Option Str :=
  fun _ _ st => (st, some "store write failed".data)

/-- A `DeleteInfo` that always fails, leaving the store unchanged. -/
def deleteInfoFailW : Str → Storage → Storage × Option Str :=
  fun _ st => (st, some "store delete failed".data)

/-- A well-behaved `DeleteData` for witnesses. -/
def deleteDataW : Str → Storage → Storage × Option Str :=
  fun id st => (⟨st.infoStore, eraseA id st.dataStore⟩, none)

/-- A marshaller for witnesses. -/
def marshalW : Info → Str := fun i => i.ID

/-- A live cardinality counter registered under `marvel.cardinality`. -/
def cardCounter : Counter :=
  ⟨HLLPP, canonicalID "marvel".data HLLPP, 3, fun _ => [], fun _ => (true, none)⟩

/-- The descriptor of `cardCounter`. -/
def infoMarvel : Info := ⟨canonicalID "marvel".data HLLPP, HLLPP, [], []⟩

/-- A one-sketch catalog holding `cardCounter`. -/
def mgr1 : ManagerStruct :=
  ⟨[(canonicalID "marvel".data HLLPP, some cardCounter)],
   [(canonicalID "marvel".data HLLPP, infoMarvel)]⟩

/-- A frequency counter whose `RemoveMultiple` succeeds. -/
def cmlCounter : Counter :=
  ⟨CML, canonicalID "x-force".data CML, 0, fun _ => [], fun _ => (true, none)⟩

/-- A catalog with a bare (non-composite) key, as `DeleteFromSketch`
expects to find. -/
def mgrBare : ManagerStruct := ⟨[("x-force".data, some cmlCounter)], []⟩

/-- A persisted descriptor under id `a.cardinality`. -/
def infoAW : Info := ⟨canonicalID "a".data HLLPP, HLLPP, [], []⟩

/-- A persisted descriptor under id `b.frequency`, distinct from
`infoAW`. -/
def infoBW : Info := ⟨canonicalID "b".data CML, CML, [], []⟩

/-- A persisted descriptor with the unknown family tag `wat`. -/
def infoUnknownW : Info := ⟨canonicalID "wild".data "wat".data, "wat".data, [], []⟩

/-- The state reached by a first successful `create("marvel", cardinality)`
on an empty catalog. -/
def r1W : ManagerStruct × Storage × Option Str :=
  CreateSketch mkCounterW mkCounterW mkCounterW saveInfoW marshalW 100
    ⟨[], []⟩ ⟨[], []⟩ "marvel".data HLLPP []

/-! ## General lemmas about the map model -/

theorem lookupA_eraseA_self (k : Str) (l : List (Str × α)) :
    lookupA k (eraseA k l) = none := by
  induction l with
  | nil => rfl
  | cons p rest ih =>
    by_cases h : p.1 = k
    · simp [eraseA, h, ih]
    · simp [eraseA, h, lookupA, ih]

theorem lookupA_eraseA_ne (k k' : Str) (l : List (Str × α)) (h : k' ≠ k) :
    lookupA k' (eraseA k l) = lookupA k' l := by
  have hkk : ¬ k = k' := fun he => h he.symm
  induction l with
  | nil => rfl
  | cons p rest ih =>
    by_cases hp : p.1 = k
    · have hpk' : ¬ p.1 = k' := fun he => h (he ▸ hp)
      simp [eraseA, hp, lookupA, hpk', hkk, ih]
    · by_cases hp' : p.1 = k'
      · simp [eraseA, hp, lookupA, hp', h]
      · simp [eraseA, hp, lookupA, hp', ih]

theorem lookupA_insertA_self (k : Str) (v : α) (l : List (Str × α)) :
    lookupA k (insertA k v l) = some v := by
  simp [insertA, lookupA]

theorem lookupA_insertA_ne (k k' : Str) (v : α) (l : List (Str × α)) (h : k' ≠ k) :
    lookupA k' (insertA k v l) = lookupA k' l := by
  have : ¬ k = k' := fun he => h he.symm
  simp [insertA, lookupA, this, lookupA_eraseA_ne k k' l h]

theorem lookupA_isSome_of_mem (k : Str) (v : α) (l : List (Str × α))
    (h : (k, v) ∈ l) : (lookupA k l).isSome := by
  induction l with
  | nil => cases h
  | cons p rest ih =>
    rcases List.mem_cons.mp h with h | h
    · cases h; simp [lookupA]
    · by_cases hp : p.1 = k
      · simp [lookupA, hp]
      · simp [lookupA, hp, ih h]

theorem mem_of_mem_eraseA (k : Str) (p : Str × α) (l : List (Str × α))
    (h : p ∈ eraseA k l) : p ∈ l := by
  induction l with
  | nil => cases h
  | cons q rest ih =>
    by_cases hq : q.1 = k
    · simp only [eraseA, if_pos hq] at h
      exact List.mem_cons_of_mem q (ih h)
    · simp only [eraseA, if_neg hq] at h
      rcases List.mem_cons.mp h with h | h
      · exact h ▸ List.mem_cons_self q rest
      · exact List.mem_cons_of_mem q (ih h)

theorem key_ne_of_mem_eraseA (k : Str) (p : Str × α) (l : List (Str × α))
    (h : p ∈ eraseA k l) : p.1 ≠ k := by
  induction l with
  | nil => cases h
  | cons q rest ih =>
    by_cases hq : q.1 = k
    · simp only [eraseA, if_pos hq] at h
      exact ih h
    · simp only [eraseA, if_neg hq] at h
      rcases List.mem_cons.mp h with h | h
      · exact h ▸ hq
      · exact ih h

/-- Helper: on a registered id, `DeleteSketch` leaves the in-memory maps
with the id erased, whatever the two store operations do. -/
theorem DeleteSketch_fst
    (deleteInfo deleteData : Str → Storage → Storage × Option Str)
    (m : ManagerStruct) (st : Storage) (sketchID sketchType : Str)
    (h : (lookupA (canonicalID sketchID sketchType) m.sketches).isSome) :
    (DeleteSketch deleteInfo deleteData m st sketchID sketchType).1
      = ⟨eraseA (canonicalID sketchID sketchType) m.sketches,
         eraseA (canonicalID sketchID sketchType) m.info⟩ := by
  cases hl : lookupA (canonicalID sketchID sketchType) m.sketches with
  | none => rw [hl] at h; simp at h
  | some v =>
    simp only [DeleteSketch, hl]
    rcases hdi : deleteInfo (canonicalID sketchID sketchType) st with ⟨st1, e1⟩
    cases e1 <;> rfl

/-- C6, confirmed: for a registered canonical id, `DeleteSketch` removes
the id from both in-memory maps before any store call; whether or not
`DeleteInfo` or `DeleteData` fails (they are universally quantified
here), the returned manager no longer contains the id in `sketches` or
`info`. -/
theorem c6_delete_in_memory_first
    (deleteInfo deleteData : Str → Storage → Storage × Option Str)
    (m : ManagerStruct) (st : Storage) (sketchID sketchType : Str)
    (h : (lookupA (canonicalID sketchID sketchType) m.sketches).isSome) :
    (DeleteSketch deleteInfo deleteData m st sketchID sketchType).1
      = ⟨eraseA (canonicalID sketchID sketchType) m.sketches,
         eraseA (canonicalID sketchID sketchType) m.info⟩ ∧
    lookupA (canonicalID sketchID sketchType)
      (DeleteSketch deleteInfo deleteData m st sketchID sketchType).1.sketches = none ∧
    lookupA (canonicalID sketchID sketchType)
      (DeleteSketch deleteInfo deleteData m st sketchID sketchType).1.info = none := by
  have h1 := DeleteSketch_fst deleteInfo deleteData m st sketchID sketchType h
  refine ⟨h1, ?_, ?_⟩
  · rw [h1]; exact lookupA_eraseA_self _ _
  · rw [h1]; exact lookupA_eraseA_self _ _

/-- Witness for C6 at a concrete catalog, with a failing `DeleteInfo`. -/
theorem c6_delete_in_memory_first_witness :
    (DeleteSketch deleteInfoFailW deleteDataW mgr1 ⟨[], []⟩ "marvel".data HLLPP).1
      = ⟨eraseA (canonicalID "marvel".data HLLPP) mgr1.sketches,
         eraseA (canonicalID "marvel".data HLLPP) mgr1.info⟩ ∧
    lookupA (canonicalID "marvel".data HLLPP)
      (DeleteSketch deleteInfoFailW deleteDataW mgr1 ⟨[], []⟩ "marvel".data HLLPP).1.sketches = none ∧
    lookupA (canonicalID "marvel".data HLLPP)
      (DeleteSketch deleteInfoFailW deleteDataW mgr1 ⟨[], []⟩ "marvel".data HLLPP).1.info = none :=
  c6_delete_in_memory_first deleteInfoFailW deleteDataW mgr1 ⟨[], []⟩ "marvel".data HLLPP rfl

/-- C7, confirmed: `GetCountForSketch` on an unregistered canonical id
returns the not-found error; on a registered live counter it dispatches
by the counter's family: cardinality → scalar `GetCount`, frequency →
`GetFrequency` of the given values, top-k → `GetFrequency nil` (the
values are ignored). -/
theorem c7_query_dispatch (m : ManagerStruct) (sketchID sketchType : Str)
    (values : List Str) :
    (lookupA (canonicalID sketchID sketchType) m.sketches = none →
      GetCountForSketch m sketchID sketchType values
        = some (QueryRes.count 0, some (noSuchSketchMsg sketchID sketchType))) ∧
    (∀ c, lookupA (canonicalID sketchID sketchType) m.sketches = some (some c) →
      (c.typ = HLLPP →
        GetCountForSketch m sketchID sketchType values
          = some (QueryRes.count c.getCount, none)) ∧
      (c.typ = CML →
        GetCountForSketch m sketchID sketchType values
          = some (QueryRes.freq (c.getFrequency (some values)), none)) ∧
      (c.typ = TopK →
        GetCountForSketch m sketchID sketchType values
          = some (QueryRes.freq (c.getFrequency none), none))) := by
  constructor
  · intro h; simp [GetCountForSketch, h]
  · intro c h
    refine ⟨?_, ?_, ?_⟩
    · intro ht
      have h1 : ¬ c.typ = CML := by rw [ht]; decide
      have h2 : ¬ c.typ = TopK := by rw [ht]; decide
      simp [GetCountForSketch, h, h1, h2]
    · intro ht
      simp [GetCountForSketch, h, ht]
    · intro ht
      have hTC : ¬ (TopK = CML) := by decide
      simp [GetCountForSketch, h, ht, hTC]

/-- Witness for C7: the cardinality dispatch on a concrete catalog. -/
theorem c7_query_dispatch_witness :
    GetCountForSketch mgr1 "marvel".data HLLPP []
      = some (QueryRes.count cardCounter.getCount, none) :=
  ((c7_query_dispatch mgr1 "marvel".data HLLPP []).2 cardCounter rfl).1 rfl

/-- C10, confirmed: `AddToSketch` returns the not-found error exactly
when the canonical id is not a key of the live map; on a registered live
counter it returns nil for every values list, including the empty
batch. -/
theorem c10_add_batch (m : ManagerStruct) (sketchID sketchType : Str)
    (values : List Str) :
    (AddToSketch m sketchID sketchType values
        = some (some (noSuchSketchMsg sketchID sketchType))
      ↔ lookupA (canonicalID sketchID sketchType) m.sketches = none) ∧
    (∀ c, lookupA (canonicalID sketchID sketchType) m.sketches = some (some c) →
      AddToSketch m sketchID sketchType values = some none) := by
  constructor
  · constructor
    · intro h
      cases hl : lookupA (canonicalID sketchID sketchType) m.sketches with
      | none => rfl
      | some v =>
        cases v with
        | none => simp [AddToSketch, hl] at h
        | some c => simp [AddToSketch, hl] at h
    · intro h; simp [AddToSketch, h]
  · intro c h; simp [AddToSketch, h]

/-- Witness for C10: the empty batch on a registered sketch succeeds. -/
theorem c10_add_batch_witness :
    AddToSketch mgr1 "marvel".data HLLPP [] = some none :=
  (c10_add_batch mgr1 "marvel".data HLLPP []).2 cardCounter rfl

/-- C4, counterexample: a catalog in which the canonical id
`marvel.cardinality` is registered, yet `DeleteFromSketch("marvel",
cardinality, …)` returns the not-found error: the source looks up the
bare `sketchID`, not the canonical id, so the claim's "NotFound only
when the canonical id is not registered" is false. -/
theorem c4_remove_lookup_cex :
    lookupA (canonicalID "marvel".data HLLPP) mgr1.sketches = some (some cardCounter) ∧
    DeleteFromSketch mgr1 "marvel".data HLLPP ["wasp".data]
      = some (some (removeNoSuchMsg "marvel".data)) :=
  ⟨rfl, rfl⟩

/-- C4, amended: `DeleteFromSketch` looks up the bare `sketchID` in the
live map (ignoring `sketchType`); it returns the not-found error exactly
when `sketchID` itself is not a key, and when `sketchID` is bound to a
live counter it dispatches `RemoveMultiple` and returns that call's
error. -/
theorem c4_remove_dispatch (m : ManagerStruct) (sketchID sketchType : Str)
    (values : List Str) :
    (lookupA sketchID m.sketches = none →
      DeleteFromSketch m sketchID sketchType values
        = some (some (removeNoSuchMsg sketchID))) ∧
    (∀ c, lookupA sketchID m.sketches = some (some c) →
      DeleteFromSketch m sketchID sketchType values
        = some (c.removeMultiple values).2) := by
  constructor
  · intro h; simp [DeleteFromSketch, h]
  · intro c h; simp [DeleteFromSketch, h]

/-- Witness for C4 (amended): removal dispatches when the bare key is
registered. -/
theorem c4_remove_dispatch_witness :
    DeleteFromSketch mgrBare "x-force".data CML ["magneto".data] = some none :=
  (c4_remove_dispatch mgrBare "x-force".data CML ["magneto".data]).2 cmlCounter rfl

/-- C9, confirmed: when the canonical id is longer than `MaxKeySize`,
`CreateSketch` returns an error and leaves the manager and the store
untouched; when the id is moreover not already registered (invariant I2
rules out registered over-long ids), the error is precisely the
id-too-long message. -/
theorem c9_id_too_long
    (newHllpp newTopk newCml : Info → Option Counter × Option Str)
    (saveInfo : Str → Str → Storage → Storage × Option Str)
    (marshal : Info → Str) (maxKeySize : Nat) (m : ManagerStruct) (st : Storage)
    (sketchID sketchType : Str) (props : List (Str × Int))
    (h : (canonicalID sketchID sketchType).length > maxKeySize) :
    ((CreateSketch newHllpp newTopk newCml saveInfo marshal maxKeySize
        m st sketchID sketchType props).1 = m ∧
     (CreateSketch newHllpp newTopk newCml saveInfo marshal maxKeySize
        m st sketchID sketchType props).2.1 = st ∧
     (CreateSketch newHllpp newTopk newCml saveInfo marshal maxKeySize
        m st sketchID sketchType props).2.2 ≠ none) ∧
    (lookupA (canonicalID sketchID sketchType) m.info = none →
      (CreateSketch newHllpp newTopk newCml saveInfo marshal maxKeySize
        m st sketchID sketchType props).2.2
        = some (tooLongMsg (canonicalID sketchID sketchType).length maxKeySize)) := by
  cases hl : lookupA (canonicalID sketchID sketchType) m.info with
  | some info =>
    constructor
    · simp [CreateSketch, hl]
    · intro hnone
      simp [hl] at hnone
  | none =>
    constructor
    · simp [CreateSketch, hl, h]
    · intro _
      simp [CreateSketch, hl, h]

/-- Witness for C9: a 17-character canonical id against `MaxKeySize = 10`. -/
theorem c9_id_too_long_witness :
    (CreateSketch mkCounterW mkCounterW mkCounterW saveInfoW marshalW 10
        mgr1 ⟨[], []⟩ "champs".data HLLPP []).1 = mgr1 ∧
    (CreateSketch mkCounterW mkCounterW mkCounterW saveInfoW marshalW 10
        mgr1 ⟨[], []⟩ "champs".data HLLPP []).2.2
      = some (tooLongMsg (canonicalID "champs".data HLLPP).length 10) :=
  ⟨(c9_id_too_long mkCounterW mkCounterW mkCounterW saveInfoW marshalW 10
      mgr1 ⟨[], []⟩ "champs".data HLLPP [] (by decide)).1.1,
   (c9_id_too_long mkCounterW mkCounterW mkCounterW saveInfoW marshalW 10
      mgr1 ⟨[], []⟩ "champs".data HLLPP [] (by decide)).2 rfl⟩

/-- Helper: a successful `CreateSketch` leaves the canonical id bound in
the `info` map to the freshly built descriptor, and bound in the
`sketches` map. -/
theorem create_ok_state
    (newHllpp newTopk newCml : Info → Option Counter × Option Str)
    (saveInfo : Str → Str → Storage → Storage × Option Str)
    (marshal : Info → Str) (maxKeySize : Nat) (m : ManagerStruct) (st : Storage)
    (sketchID sketchType : Str) (props : List (Str × Int))
    (m₁ : ManagerStruct) (st₁ : Storage)
    (h : CreateSketch newHllpp newTopk newCml saveInfo marshal maxKeySize
          m st sketchID sketchType props = (m₁, st₁, none)) :
    m₁.info = insertA (canonicalID sketchID sketchType)
        ⟨canonicalID sketchID sketchType, sketchType, props, []⟩ m.info ∧
    (lookupA (canonicalID sketchID sketchType) m₁.sketches).isSome := by
  simp only [CreateSketch] at h
  split at h
  · simp at h
  · split at h
    · simp at h
    · split at h
      · simp at h
      · split at h
        · simp at h
        · split at h
          · simp at h
          · simp only [dumpInfo] at h
            rw [Prod.mk.injEq, Prod.mk.injEq] at h
            obtain ⟨hm, hst, -⟩ := h
            subst hm
            exact ⟨rfl, by simp [lookupA_insertA_self]⟩

/-- C1, confirmed: after a successful `create(name, family)`, a second
`create` of the same `(name, family)` (any properties) returns the
duplicate-id error and returns with the catalog and the store exactly as
the first create left them; the first sketch's descriptor and estimator
registration survive intact. -/
theorem c1_duplicate_create
    (newHllpp newTopk newCml : Info → Option Counter × Option Str)
    (saveInfo : Str → Str → Storage → Storage × Option Str)
    (marshal : Info → Str) (maxKeySize : Nat) (m : ManagerStruct) (st : Storage)
    (sketchID sketchType : Str) (props props' : List (Str × Int))
    (m₁ : ManagerStruct) (st₁ : Storage)
    (h : CreateSketch newHllpp newTopk newCml saveInfo marshal maxKeySize
          m st sketchID sketchType props = (m₁, st₁, none)) :
    CreateSketch newHllpp newTopk newCml saveInfo marshal maxKeySize
        m₁ st₁ sketchID sketchType props'
      = (m₁, st₁, some (dupIdMsg (canonicalID sketchID sketchType) sketchType)) ∧
    lookupA (canonicalID sketchID sketchType) m₁.info
      = some ⟨canonicalID sketchID sketchType, sketchType, props, []⟩ ∧
    (lookupA (canonicalID sketchID sketchType) m₁.sketches).isSome := by
  obtain ⟨hinfo, hsk⟩ := create_ok_state newHllpp newTopk newCml saveInfo marshal
    maxKeySize m st sketchID sketchType props m₁ st₁ h
  have hlook : lookupA (canonicalID sketchID sketchType) m₁.info
      = some ⟨canonicalID sketchID sketchType, sketchType, props, []⟩ := by
    rw [hinfo]; exact lookupA_insertA_self _ _ _
  refine ⟨?_, hlook, hsk⟩
  simp [CreateSketch, hlook]

/-- Witness for C1: two identical creates in a row on an empty catalog;
`r1W` is the state after the first. -/
theorem c1_duplicate_create_witness :
    CreateSketch mkCounterW mkCounterW mkCounterW saveInfoW marshalW 100
        r1W.1 r1W.2.1 "marvel".data HLLPP []
      = (r1W.1, r1W.2.1, some (dupIdMsg (canonicalID "marvel".data HLLPP) HLLPP)) :=
  (c1_duplicate_create mkCounterW mkCounterW mkCounterW saveInfoW marshalW 100
      ⟨[], []⟩ ⟨[], []⟩ "marvel".data HLLPP [] [] r1W.1 r1W.2.1 rfl).1

/-- C5, code bug: on a create whose `SaveInfo` fails, `CreateSketch`
still returns nil (no error surfaces), the canonical id stays bound in
BOTH in-memory maps (no rollback), and the info store is left without
the descriptor — the spec's §7 create-atomicity requirement (roll back
the in-memory entry and return the error) is not implemented, because
`dumpInfo` discards `SaveInfo`'s result. -/
theorem c5_saveinfo_failure_ignored :
    (CreateSketch mkCounterW mkCounterW mkCounterW saveInfoFailW marshalW 100
        ⟨[], []⟩ ⟨[], []⟩ "marvel".data HLLPP []).2.2 = none ∧
    (lookupA (canonicalID "marvel".data HLLPP)
        (CreateSketch mkCounterW mkCounterW mkCounterW saveInfoFailW marshalW 100
          ⟨[], []⟩ ⟨[], []⟩ "marvel".data HLLPP []).1.sketches).isSome = true ∧
    (lookupA (canonicalID "marvel".data HLLPP)
        (CreateSketch mkCounterW mkCounterW mkCounterW saveInfoFailW marshalW 100
          ⟨[], []⟩ ⟨[], []⟩ "marvel".data HLLPP []).1.info).isSome = true ∧
    (CreateSketch mkCounterW mkCounterW mkCounterW saveInfoFailW marshalW 100
        ⟨[], []⟩ ⟨[], []⟩ "marvel".data HLLPP []).2.1 = (⟨[], []⟩ : Storage) :=
  ⟨rfl, rfl, rfl, rfl⟩

/-- C2, code bug: `loadInfo` stores `&infoStruct` — a pointer to the one
loop-external variable — for every descriptor, so with two distinct
persisted descriptors BOTH ids end up bound to the second (last)
descriptor's contents; ids are not bound to their own descriptors. -/
theorem c2_loadinfo_shared_cell :
    infoAW ≠ infoBW ∧
    lookupA infoAW.ID
        (loadInfo [(infoAW.ID, infoAW), (infoBW.ID, infoBW)] ⟨[], []⟩).info
      = some infoBW ∧
    lookupA infoBW.ID
        (loadInfo [(infoAW.ID, infoAW), (infoBW.ID, infoBW)] ⟨[], []⟩).info
      = some infoBW :=
  ⟨by decide, rfl, rfl⟩

/-- C3, code bug: rehydrating a descriptor with the unknown family tag
`wat` does not abort the other descriptors (no error is returned and the
known-tag descriptor is loaded), but the unknown descriptor's id IS
added to the live `sketches` map — bound to a nil interface value —
because the `switch` default only logs and control still reaches
`m.sketches[info.ID] = sketch`. -/
theorem c3_unknown_tag_inserts_nil :
    (loadSketches mkCounterW mkCounterW mkCounterW
        ⟨[], [(infoUnknownW.ID, infoUnknownW), (infoAW.ID, infoAW)]⟩).2 = none ∧
    lookupA infoUnknownW.ID
        (loadSketches mkCounterW mkCounterW mkCounterW
          ⟨[], [(infoUnknownW.ID, infoUnknownW), (infoAW.ID, infoAW)]⟩).1.sketches
      = some none ∧
    (lookupA infoAW.ID
        (loadSketches mkCounterW mkCounterW mkCounterW
          ⟨[], [(infoUnknownW.ID, infoUnknownW), (infoAW.ID, infoAW)]⟩).1.sketches).isSome
      = true :=
  ⟨rfl, rfl, rfl⟩

/-- Taking exactly the length of the left part of an append returns it. -/
theorem take_length_append (l₁ l₂ : List α) : (l₁ ++ l₂).take l₁.length = l₁ := by
  induction l₁ with
  | nil => rfl
  | cons a t ih => simp [List.take, ih]

/-- `sketchEntry` recovers the display name: for a counter whose id is
`n ++ "." ++ typ`, the entry is `typ ++ "/" ++ n`. -/
theorem sketchEntry_decomp (c : Counter) (n : Str) (h : c.id = n ++ '.' :: c.typ) :
    sketchEntry c = c.typ ++ '/' :: n := by
  have hlen : c.id.length - c.typ.length - 1 = n.length := by
    rw [h]
    simp only [List.length_append, List.length_cons]
    omega
  rw [sketchEntry, hlen, h, take_length_append]

/-- Splitting at the first slash is unambiguous when both prefixes are
slash-free. -/
theorem slash_free_append_inj (t₁ : Str) : ∀ t₂ n₁ n₂ : Str, '/' ∉ t₁ → '/' ∉ t₂ →
    t₁ ++ '/' :: n₁ = t₂ ++ '/' :: n₂ → t₁ = t₂ ∧ n₁ = n₂ := by
  induction t₁ with
  | nil =>
    intro t₂ n₁ n₂ h₁ h₂ h
    cases t₂ with
    | nil => simpa using h
    | cons d t =>
      simp only [List.nil_append, List.cons_append, List.cons.injEq] at h
      have : '/' ∈ d :: t := by rw [h.1]; exact List.mem_cons_self d t
      exact absurd this h₂
  | cons a t₁' ih =>
    intro t₂ n₁ n₂ h₁ h₂ h
    cases t₂ with
    | nil =>
      simp only [List.nil_append, List.cons_append, List.cons.injEq] at h
      have : '/' ∈ a :: t₁' := by rw [← h.1]; exact List.mem_cons_self a t₁'
      exact absurd this h₁
    | cons d t₂' =>
      simp only [List.cons_append, List.cons.injEq] at h
      obtain ⟨hhead, htail⟩ := h
      have h₁' : '/' ∉ t₁' := fun hm => h₁ (List.mem_cons_of_mem a hm)
      have h₂' : '/' ∉ t₂' := fun hm => h₂ (List.mem_cons_of_mem d hm)
      obtain ⟨ht, hn⟩ := ih t₂' n₁ n₂ h₁' h₂' htail
      exact ⟨by rw [hhead, ht], hn⟩

/-- In a well-formed slice of the live map whose keys all differ from
`name.fam`, no display entry reads `fam/name`. -/
theorem getSketchesGo_count_zero (fam name : Str) (hfam : '/' ∉ fam) :
    ∀ l : List (Str × Option Counter),
      (∀ p ∈ l, EntryWF p) →
      (∀ p ∈ l, p.1 ≠ canonicalID name fam) →
      ∃ out, getSketchesGo l = some out ∧ out.count (fam ++ '/' :: name) = 0 := by
  intro l
  induction l with
  | nil => intro _ _; exact ⟨[], rfl, rfl⟩
  | cons p rest ih =>
    intro hwf hne
    obtain ⟨k, v?⟩ := p
    obtain ⟨c, n, hv, hcid, hslash, hdec⟩ := hwf (k, v?) (List.mem_cons_self _ rest)
    dsimp only at hv hcid hdec
    obtain ⟨out, hout, hcnt⟩ :=
      ih (fun q hq => hwf q (List.mem_cons_of_mem _ hq))
         (fun q hq => hne q (List.mem_cons_of_mem _ hq))
    have hdisp : sketchEntry c ≠ fam ++ '/' :: name := by
      rw [sketchEntry_decomp c n (hcid.trans hdec)]
      intro he
      obtain ⟨ht, hn⟩ := slash_free_append_inj c.typ fam n name hslash hfam he
      refine hne (k, v?) (List.mem_cons_self _ rest) ?_
      dsimp only
      rw [hdec, ht, hn]
      rfl
    subst hv
    refine ⟨sketchEntry c :: out, by simp [getSketchesGo, hout], ?_⟩
    rw [List.count_cons_of_ne (Ne.symm hdisp), hcnt]

/-- In a well-formed, key-unique live map containing the sketch
`(name, fam)`, exactly one display entry reads `fam/name`. -/
theorem getSketchesGo_count_one (fam name : Str) (hfam : '/' ∉ fam) (c : Counter)
    (hct : c.typ = fam) (hcid : c.id = canonicalID name fam) :
    ∀ l : List (Str × Option Counter),
      (∀ p ∈ l, EntryWF p) →
      (l.map Prod.fst).Nodup →
      (canonicalID name fam, some c) ∈ l →
      ∃ out, getSketchesGo l = some out ∧ out.count (fam ++ '/' :: name) = 1 := by
  intro l
  induction l with
  | nil => intro _ _ hmem; cases hmem
  | cons p rest ih =>
    intro hwf hnd hmem
    obtain ⟨k, v?⟩ := p
    simp only [List.map_cons] at hnd
    have hnd1 : k ∉ rest.map Prod.fst := (List.nodup_cons.mp hnd).1
    have hnd2 : (rest.map Prod.fst).Nodup := (List.nodup_cons.mp hnd).2
    rcases List.mem_cons.mp hmem with heq | hmem'
    · injection heq with hk hv
      subst hk
      subst hv
      have hne : ∀ q ∈ rest, q.1 ≠ canonicalID name fam := by
        intro q hq he
        apply hnd1
        rw [← he]
        exact List.mem_map_of_mem Prod.fst hq
      obtain ⟨out, hout, hcnt⟩ := getSketchesGo_count_zero fam name hfam rest
        (fun q hq => hwf q (List.mem_cons_of_mem _ hq)) hne
      have hdisp : sketchEntry c = fam ++ '/' :: name := by
        rw [sketchEntry_decomp c name (by rw [hcid, hct]; rfl), hct]
      refine ⟨sketchEntry c :: out, by simp [getSketchesGo, hout], ?_⟩
      rw [hdisp, List.count_cons_self, hcnt]
    · obtain ⟨c', n', hv, hcid', hslash', hdec'⟩ := hwf (k, v?) (List.mem_cons_self _ rest)
      dsimp only at hv hcid' hdec'
      have hkne : k ≠ canonicalID name fam := by
        intro he
        apply hnd1
        rw [he]
        exact List.mem_map_of_mem Prod.fst hmem'
      obtain ⟨out, hout, hcnt⟩ :=
        ih (fun q hq => hwf q (List.mem_cons_of_mem _ hq)) hnd2 hmem'
      have hdisp : sketchEntry c' ≠ fam ++ '/' :: name := by
        rw [sketchEntry_decomp c' n' (hcid'.trans hdec')]
        intro he
        obtain ⟨ht, hn⟩ := slash_free_append_inj c'.typ fam n' name hslash' hfam he
        refine hkne ?_
        rw [hdec', ht, hn]
        rfl
      subst hv
      refine ⟨sketchEntry c' :: out, by simp [getSketchesGo, hout], ?_⟩
      rw [List.count_cons_of_ne (Ne.symm hdisp), hcnt]

/-- C8, confirmed: in a well-formed catalog with unique keys, a sketch
created as `(name, fam)` and still registered contributes exactly one
`list()` entry, and that entry is the string `fam ++ "/" ++ name` (the
family tag, a slash, and the canonical id with the `.fam` suffix
stripped); after `DeleteSketch(name, fam)` — whatever the store
operations do — `list()` has zero such entries. -/
theorem c8_list_one_entry
    (deleteInfo deleteData : Str → Storage → Storage × Option Str)
    (m : ManagerStruct) (st : Storage) (name fam : Str) (c : Counter)
    (hfam : '/' ∉ fam) (hct : c.typ = fam) (hcid : c.id = canonicalID name fam)
    (hmem : (canonicalID name fam, some c) ∈ m.sketches)
    (hwf : ∀ p ∈ m.sketches, EntryWF p)
    (hnd : (m.sketches.map Prod.fst).Nodup) :
    (∃ out, GetSketches m = some out ∧ out.count (fam ++ '/' :: name) = 1) ∧
    (∃ out, GetSketches (DeleteSketch deleteInfo deleteData m st name fam).1 = some out ∧
      out.count (fam ++ '/' :: name) = 0) := by
  constructor
  · exact getSketchesGo_count_one fam name hfam c hct hcid m.sketches hwf hnd hmem
  · have hs : (lookupA (canonicalID name fam) m.sketches).isSome :=
      lookupA_isSome_of_mem _ _ _ hmem
    have h1 := DeleteSketch_fst deleteInfo deleteData m st name fam hs
    rw [GetSketches, h1]
    exact getSketchesGo_count_zero fam name hfam
      (eraseA (canonicalID name fam) m.sketches)
      (fun q hq => hwf q (mem_of_mem_eraseA _ _ _ hq))
      (fun q hq => key_ne_of_mem_eraseA _ _ _ hq)

/-- Witness for C8 at the one-sketch catalog, with a failing
`DeleteInfo`. -/
theorem c8_list_one_entry_witness :
    (∃ out, GetSketches mgr1 = some out ∧
      out.count (HLLPP ++ '/' :: "marvel".data) = 1) ∧
    (∃ out, GetSketches (DeleteSketch deleteInfoFailW deleteDataW mgr1 ⟨[], []⟩
        "marvel".data HLLPP).1 = some out ∧
      out.count (HLLPP ++ '/' :: "marvel".data) = 0) :=
  c8_list_one_entry deleteInfoFailW deleteDataW mgr1 ⟨[], []⟩ "marvel".data HLLPP
    cardCounter (by decide) rfl rfl (List.mem_cons_self _ _)
    (fun p hp => by
      rw [List.mem_singleton.mp hp]
      exact ⟨cardCounter, "marvel".data, rfl, rfl, by decide, rfl⟩)
    (by decide)
